import Mathlib

/-!
Shallow embedding of the gcbrickwork binary codecs, translated from
`src/gcbrickwork/JMP.py` and `src/gcbrickwork/PRM.py`.

Buffers are modelled as `List Nat`, one element per byte (every write stores
bytes reduced modulo 256, matching the fixed-width packing of the byte
helpers).  The low-level helpers live in `Bytes_Helper`, a module of this
repository that is not among the sources; those primitives are modelled from
the spec, section 4.1 (Primitive Codec), adopting the natural seek-then-read
stream semantics for `BytesIO`.  Everything above the primitive layer is a
direct translation of the two source files; line references are given at each
definition.

One genuine run-time failure is modelled explicitly: `JMPFieldHeader` is a
mutable `@dataclass` (generated `__eq__`, not frozen), hence unhashable, and
the row decoder stores every cell into a dict keyed by it, so each such store
raises `TypeError: unhashable type` in the source; this is
`CodecErr.typeError` (see `loadRow`).
-/

/-- Error taxonomy of the spec, section 7.  `JMP.load_jmp` raises
`JMPFileError` at two places, distinguished as `headerSizeMismatch`
(JMP.py:85-88) and `entrySizeOverflow` (JMP.py:92-94); the `ValueError`
raises at JMP.py:179 and PRM.py:133 are `unknownFieldType` and
`unknownParameterType`.  `typeError` is the Python `TypeError` raised when a
dict store uses an unhashable key — the fate of every cell store at
JMP.py:199/201/204, since the mutable dataclass `JMPFieldHeader` has
`__hash__ = None`. -/
inductive CodecErr where
  | truncatedBuffer
  | headerSizeMismatch
  | entrySizeOverflow
  | unknownFieldType
  | unknownParameterType
  | valueTooLong
  | typeError
  deriving DecidableEq

/-- Byte of a buffer at an index (0 past the end; reads guard the bound). -/
def byteAt (buf : List Nat) (i : Nat) : Nat := buf.getD i 0

/-- Modelled from the spec: `read_u8` of `Bytes_Helper` reads one byte at an
absolute offset, failing with `TruncatedBuffer` when out of range. -/
def readU8 (buf : List Nat) (off : Nat) : Except CodecErr Nat :=
  if off + 1 ≤ buf.length then .ok (byteAt buf off) else .error .truncatedBuffer

/-- Modelled from the spec: `read_u16` reads a big-endian 16-bit word. -/
def readU16 (buf : List Nat) (off : Nat) : Except CodecErr Nat :=
  if off + 2 ≤ buf.length then
    .ok (byteAt buf off * 256 + byteAt buf (off + 1))
  else .error .truncatedBuffer

/-- Modelled from the spec: `read_u32` reads a big-endian 32-bit word. -/
def readU32 (buf : List Nat) (off : Nat) : Except CodecErr Nat :=
  if off + 4 ≤ buf.length then
    .ok (byteAt buf off * 16777216 + byteAt buf (off + 1) * 65536 +
         byteAt buf (off + 2) * 256 + byteAt buf (off + 3))
  else .error .truncatedBuffer

/-- Modelled from the spec: `read_s32` reads a big-endian 32-bit word in
two's complement. -/
def readS32 (buf : List Nat) (off : Nat) : Except CodecErr Int :=
  (readU32 buf off).map fun w =>
    if w < 2147483648 then (w : Int) else (w : Int) - 4294967296

/-- Modelled from the spec: `read_float` reads a 32-bit IEEE-754 value; the
value is kept as its raw big-endian bit pattern, which the codecs store and
write back verbatim. -/
def readFloatWord (buf : List Nat) (off : Nat) : Except CodecErr Nat :=
  readU32 buf off

/-- Modelled from the spec: `read_str_until_null_character` reads exactly
`len` bytes at `off` and trims at the first null terminator.  Text is kept
as its encoded byte sequence. -/
def readStrUntilNull (buf : List Nat) (off len : Nat) : Except CodecErr (List Nat) :=
  if off + len ≤ buf.length then
    .ok (((buf.drop off).take len).takeWhile (fun b => b ≠ 0))
  else .error .truncatedBuffer

/-- Modelled from the spec: a write places `bs` at absolute offset `off`,
growing the buffer (null-filled gap) if needed and never truncating bytes at
other offsets. -/
def writeBytes (buf : List Nat) (off : Nat) (bs : List Nat) : List Nat :=
  let grown := buf ++ List.replicate (off - buf.length) 0
  grown.take off ++ bs ++ grown.drop (off + bs.length)

/-- Big-endian bytes of a 16-bit word (packing reduces the value mod 2^16). -/
def u16Bytes (n : Nat) : List Nat := [n / 256 % 256, n % 256]

/-- Big-endian bytes of a 32-bit word (packing reduces the value mod 2^32). -/
def u32Bytes (n : Nat) : List Nat :=
  [n / 16777216 % 256, n / 65536 % 256, n / 256 % 256, n % 256]

/-- Modelled from the spec: `write_u8`. -/
def writeU8 (buf : List Nat) (off v : Nat) : List Nat :=
  writeBytes buf off [v % 256]

/-- Modelled from the spec: `write_u16`. -/
def writeU16 (buf : List Nat) (off v : Nat) : List Nat :=
  writeBytes buf off (u16Bytes v)

/-- Modelled from the spec: `write_u32`. -/
def writeU32 (buf : List Nat) (off v : Nat) : List Nat :=
  writeBytes buf off (u32Bytes v)

/-- Modelled from the spec: `write_s32` packs a signed value in two's
complement. -/
def writeS32 (buf : List Nat) (off : Nat) (v : Int) : List Nat :=
  writeU32 buf off (v.emod 4294967296).toNat

/-- Modelled from the spec: `write_float` writes the raw 32-bit pattern. -/
def writeFloatWord (buf : List Nat) (off w : Nat) : List Nat :=
  writeU32 buf off w

/-- Modelled from the spec: `write_str` encodes `s`, pads it with `pad` to
exactly `len` bytes, failing with `ValueTooLong` when the text is longer
than the field width. -/
def writeStr (buf : List Nat) (off : Nat) (s : List Nat) (len pad : Nat) :
    Except CodecErr (List Nat) :=
  if len < s.length then .error .valueTooLong
  else .ok (writeBytes buf off (s ++ List.replicate (len - s.length) pad))

/-- Field descriptor, JMP.py:20-44.  `field_name` is initialised to the
decimal string of the hash (JMP.py:40). -/
structure JMPFieldHeader where
  field_hash : Nat
  field_name : String
  field_bitmask : Nat
  field_start_byte : Nat
  field_shift_byte : Nat
  field_data_type : Nat
  deriving DecidableEq

/-- Constructor `JMPFieldHeader.__init__` (JMP.py:38-44). -/
def mkJMPFieldHeader (h m sb sh ty : Nat) : JMPFieldHeader :=
  ⟨h, toString h, m, sb, sh, ty⟩

/-- Decoded cell value.  Float cells keep the raw 32-bit pattern. -/
inductive JMPValue where
  | vInt (n : Nat)
  | vStr (s : List Nat)
  | vFlt (w : Nat)
  deriving DecidableEq

/-- One row: the insertion-ordered mapping from descriptor to value
(JMP.py:10).  In the source this is a dict keyed by `JMPFieldHeader`, which
is unhashable (mutable dataclass), so at run time only the empty row is ever
constructed; the association list gives the declared shape. -/
abbrev JMPEntry := List (JMPFieldHeader × JMPValue)

/-- Table object, JMP.py:50-64.  `single_entry_size` is a class-level
attribute defaulting to 0 (JMP.py:60, commented `TODO Need to calculate
this.`); `__init__` (JMP.py:62-64) binds only `fields` and `data_entries`,
and `load_jmp` keeps `single_entry_size` in a local variable, so on every
constructed instance the attribute reads as 0. -/
structure JMP where
  fields : List JMPFieldHeader
  data_entries : List JMPEntry
  single_entry_size : Nat
  deriving DecidableEq

/-- Constructor `JMP.__init__` (JMP.py:62-64): `single_entry_size` stays at
the class default 0. -/
def mkJMP (fs : List JMPFieldHeader) (es : List JMPEntry) : JMP := ⟨fs, es, 0⟩

/-- Length of the block `jmp_data.read(header_block_size - 16)` returns at
JMP.py:84.  The stream stands at position 16 after the four preamble reads;
`BytesIO.read` returns at most the remaining bytes, and a negative argument
(header size below 16) reads everything that remains. -/
def jmpHeaderBlockLen (buf : List Nat) (hbs : Nat) : Nat :=
  if 16 ≤ hbs then min (hbs - 16) (buf.length - 16) else buf.length - 16

/-- Descriptor-block parser `_load_headers` (JMP.py:165-182), recursing over
the remaining descriptor count with the running offset. -/
def loadHeadersFrom (buf : List Nat) : Nat → Nat → Except CodecErr (List JMPFieldHeader)
  | _, 0 => .ok []
  | off, n + 1 =>
    match readU32 buf off, readU32 buf (off + 4), readU16 buf (off + 8),
          readU8 buf (off + 10), readU8 buf (off + 11) with
    | .ok h, .ok m, .ok sb, .ok sh, .ok ty =>
      if ty = 0 ∨ ty = 1 ∨ ty = 2 then
        match loadHeadersFrom buf (off + 12) n with
        | .error e => .error e
        | .ok rest => .ok (mkJMPFieldHeader h m sb sh ty :: rest)
      else .error .unknownFieldType
    | .error e, _, _, _, _ => .error e
    | _, .error e, _, _, _ => .error e
    | _, _, .error e, _, _ => .error e
    | _, _, _, .error e, _ => .error e
    | _, _, _, _, .error e => .error e

/-- Cell loop of `_load_entries` (JMP.py:195-204): one row at `start`.
`JMPFieldHeader` is a mutable `@dataclass` (generated `__eq__`, not frozen),
so its `__hash__` is `None` and every dict store
`new_entry[jmp_header] = ...` (JMP.py:199/201/204) raises
`TypeError: unhashable type`.  Python evaluates the value expression before
the store, so a failing read surfaces first; otherwise the store itself
raises, and no cell is ever added — only the empty row completes.  The
source `match` has no arm for other type tags, so such a field attempts no
store. -/
def loadRow (buf : List Nat) (start : Nat) : List JMPFieldHeader → Except CodecErr JMPEntry
  | [] => .ok []
  | f :: fs =>
    match f.field_data_type with
    | 0 =>
      match readU32 buf (start + f.field_start_byte) with
      | .error e => .error e
      | .ok _ => .error .typeError
    | 1 =>
      match readStrUntilNull buf (start + f.field_start_byte) 32 with
      | .error e => .error e
      | .ok _ => .error .typeError
    | 2 =>
      match readFloatWord buf (start + f.field_start_byte) with
      | .error e => .error e
      | .ok _ => .error .typeError
    | _ => loadRow buf start fs

/-- Value expression on the right-hand side of the dict store at JMP.py:199,
computed before the store raises: the word is shifted first, then masked. -/
def jmpIntDecodeExpr (w : Nat) (f : JMPFieldHeader) : Nat :=
  (w >>> f.field_shift_byte) &&& f.field_bitmask

/-- Row loop of `_load_entries` (JMP.py:184-207): row `i` starts at
`i * entry_size + header_size` (JMP.py:193). -/
def loadEntriesFrom (buf : List Nat) (fields : List JMPFieldHeader) (ses hbs : Nat) :
    Nat → Nat → Except CodecErr (List JMPEntry)
  | _, 0 => .ok []
  | i, n + 1 =>
    match loadRow buf (i * ses + hbs) fields with
    | .error e => .error e
    | .ok row =>
      match loadEntriesFrom buf fields ses hbs (i + 1) n with
      | .error e => .error e
      | .ok rest => .ok (row :: rest)

/-- Loader `JMP.load_jmp` (JMP.py:66-97).  The validation at JMP.py:85-86 is
`len % 12 != 0 or not len / 12 == field_count or header_block_size > size`;
the source compares with Python float division, which agrees with truncated
natural division whenever the first disjunct fails, so the disjunction below
is extensionally the same test. -/
def loadJmp (buf : List Nat) : Except CodecErr JMP :=
  match readS32 buf 0, readS32 buf 4, readU32 buf 8, readU32 buf 12 with
  | .ok dec, .ok fc, .ok hbs, .ok ses =>
    if jmpHeaderBlockLen buf hbs % 12 ≠ 0
        ∨ ((jmpHeaderBlockLen buf hbs / 12 : Nat) : Int) ≠ fc
        ∨ hbs > buf.length then
      .error .headerSizeMismatch
    else
      match loadHeadersFrom buf 16 fc.toNat with
      | .error e => .error e
      | .ok fields =>
        if (hbs : Int) + (ses : Int) * dec > (buf.length : Int) then
          .error .entrySizeOverflow
        else
          match loadEntriesFrom buf fields ses hbs 0 dec.toNat with
          | .error e => .error e
          | .ok entries => .ok (mkJMP fields entries)
  | .error e, _, _, _ => .error e
  | _, .error e, _, _ => .error e
  | _, _, .error e, _ => .error e
  | _, _, _, .error e => .error e

/-- Header-block writer `JMP._update_headers` (JMP.py:137-148); returns the
buffer and the final offset. -/
def jmpUpdateHeaders (buf : List Nat) (off : Nat) :
    List JMPFieldHeader → List Nat × Nat
  | [] => (buf, off)
  | f :: fs =>
    let b1 := writeU32 buf off f.field_hash
    let b2 := writeU32 b1 (off + 4) f.field_bitmask
    let b3 := writeU16 b2 (off + 8) f.field_start_byte
    let b4 := writeU8 b3 (off + 10) f.field_shift_byte
    let b5 := writeU8 b4 (off + 11) f.field_data_type
    jmpUpdateHeaders b5 (off + 12) fs

/-- One cell of `JMP._update_entries` (JMP.py:153-161), the source text as
written.  For an Int field it computes `new_val = (val << shift) | bitmask`
(JMP.py:156).  On real data every decoded row is empty (see `loadRow`), so
these arms never run for decoded tables; the source `match` has no arm for
other tags, and such combinations fall through leaving the buffer
unchanged. -/
def jmpWriteField (buf : List Nat) (off : Nat) (p : JMPFieldHeader × JMPValue) :
    Except CodecErr (List Nat) :=
  match p.1.field_data_type, p.2 with
  | 0, .vInt n =>
    .ok (writeU32 buf (off + p.1.field_start_byte)
      ((n <<< p.1.field_shift_byte) ||| p.1.field_bitmask))
  | 1, .vStr s => writeStr buf (off + p.1.field_start_byte) s 32 0
  | 2, .vFlt w => .ok (writeFloatWord buf (off + p.1.field_start_byte) w)
  | _, _ => .ok buf

/-- Cell loop of `JMP._update_entries` over one row (JMP.py:153-161). -/
def jmpWriteRow (buf : List Nat) (off : Nat) : JMPEntry → Except CodecErr (List Nat)
  | [] => .ok buf
  | p :: ps =>
    match jmpWriteField buf off p with
    | .error e => .error e
    | .ok b => jmpWriteRow b off ps

/-- Row loop of `JMP._update_entries` (JMP.py:150-162): after each row the
offset advances by `self.single_entry_size`. -/
def jmpUpdateEntries (ses : Nat) (buf : List Nat) (off : Nat) :
    List JMPEntry → Except CodecErr (List Nat)
  | [] => .ok buf
  | r :: rs =>
    match jmpWriteRow buf off r with
    | .error e => .error e
    | .ok b => jmpUpdateEntries ses b (off + ses) rs

/-- Encoder `JMP.create_new_jmp` (JMP.py:115-135).  The preamble writes
`self.single_entry_size` (JMP.py:125), and the trailing filler at
JMP.py:133-134 is `write_str(local_data, curr_length, "", curr_length % 32,
"@")`: `curr_length % 32` filler bytes of `@` (0x40). -/
def createNewJmp (t : JMP) : Except CodecErr (List Nat) :=
  let nhs := t.fields.length * 12 + 16
  let b0 := writeS32 [] 0 (t.data_entries.length : Int)
  let b1 := writeS32 b0 4 (t.fields.length : Int)
  let b2 := writeU32 b1 8 nhs
  let b3 := writeU32 b2 12 t.single_entry_size
  let hb := jmpUpdateHeaders b3 16 t.fields
  match jmpUpdateEntries t.single_entry_size hb.1 hb.2 t.data_entries with
  | .error e => .error e
  | .ok b4 =>
    if b4.length % 32 > 0 then writeStr b4 b4.length [] (b4.length % 32) 64
    else .ok b4

/-- Row values of a table, column order kept, descriptors dropped. -/
def jmpRowValues (t : JMP) : List (List JMPValue) :=
  t.data_entries.map (fun r => r.map Prod.snd)

/-- Modelled from the spec: its Int decode policy reads a 32-bit word `w`
and yields `(w & bitmask) >> shift`, the mask applied before the shift. -/
def jmpSpecIntDecode (w m s : Nat) : Nat := (w &&& m) >>> s

/-- Modelled from the spec: its canonical Int encode policy is
`(existing_word & ~bitmask) | ((value << shift) & bitmask)` with
`existing_word` read from the original source buffer. -/
def jmpSpecIntEncode (existing v s m : Nat) : Nat :=
  (existing &&& (4294967295 ^^^ m)) ||| ((v <<< s) &&& m)

/-- Typed parameter payload (PRM.py:8-54).  Vector floats keep their raw
32-bit patterns; Byte/Number payloads stay opaque blobs (PRM.py:117-118). -/
inductive PRMValue where
  | blob (bs : List Nat)
  | short (n : Nat)
  | vector (a b c : Nat)
  | color (r g b o : Nat)
  deriving DecidableEq

/-- Parameter entry `PRMFieldEntry` (PRM.py:57-79).  `field_type` stores the
numeric tag read from the file (`entry_size`, PRM.py:135). -/
structure PRMFieldEntry where
  field_hash : Nat
  field_name : List Nat
  field_name_size : Nat
  field_type : Nat
  field_value : PRMValue
  deriving DecidableEq

/-- Body of one iteration of the `PRM.load_file` loop (PRM.py:109-135),
returning the entry together with the updated running offset.  After
`entry_size = read_u32(self.data, current_offset)` (PRM.py:115) the stream
stands at `current_offset + 4`, which is where the Byte/Number arm's
`self.data.read(entry_size)` starts (PRM.py:118); `BytesIO.read` returns at
most the remaining bytes and never fails.  The Short/Vector/Color arms read
at `current_offset` itself (PRM.py:120-131), and the cursor then advances by
`entry_size` only (PRM.py:134). -/
def prmDecodeOne (buf : List Nat) (off : Nat) : Except CodecErr (PRMFieldEntry × Nat) :=
  match readU16 buf off, readU16 buf (off + 2) with
  | .ok h, .ok nl =>
    match readStrUntilNull buf (off + 4) nl with
    | .error e => .error e
    | .ok name =>
      let off := off + nl + 4
      match readU32 buf off with
      | .error e => .error e
      | .ok sz =>
        if sz = 1 ∨ sz = 4 then
          .ok (⟨h, name, nl, sz, .blob ((buf.drop (off + 4)).take sz)⟩, off + sz)
        else if sz = 2 then
          match readU16 buf off with
          | .error e => .error e
          | .ok v => .ok (⟨h, name, nl, sz, .short v⟩, off + sz)
        else if sz = 12 then
          match readFloatWord buf off, readFloatWord buf (off + 4),
                readFloatWord buf (off + 8) with
          | .ok a, .ok b, .ok c => .ok (⟨h, name, nl, sz, .vector a b c⟩, off + sz)
          | .error e, _, _ => .error e
          | _, .error e, _ => .error e
          | _, _, .error e => .error e
        else if sz = 16 then
          match readU32 buf off, readU32 buf (off + 4), readU32 buf (off + 8),
                readU32 buf (off + 12) with
          | .ok a, .ok b, .ok c, .ok d => .ok (⟨h, name, nl, sz, .color a b c d⟩, off + sz)
          | .error e, _, _, _ => .error e
          | _, .error e, _, _ => .error e
          | _, _, .error e, _ => .error e
          | _, _, _, .error e => .error e
        else .error .unknownParameterType
  | .error e, _ => .error e
  | _, .error e => .error e

/-- Entry loop of `PRM.load_file` (PRM.py:109-135); `es` is the running
`self.data_entries` list, each decoded entry appended to it in turn
(PRM.py:135). -/
def prmLoadLoop (buf : List Nat) : Nat → Nat → List PRMFieldEntry → Except CodecErr (List PRMFieldEntry)
  | 0, _, es => .ok es
  | n + 1, off, es =>
    match prmDecodeOne buf off with
    | .error e => .error e
    | .ok (ent, off2) => prmLoadLoop buf n off2 (es ++ [ent])

/-- Loader `PRM.load_file` (PRM.py:92-135) as a transformation of the
instance's `data_entries` list: the loop appends the decoded entries after
whatever the list already holds (there is no reset of `self.data_entries`). -/
def prmLoadFile (es : List PRMFieldEntry) (buf : List Nat) : Except CodecErr (List PRMFieldEntry) :=
  match readU32 buf 0 with
  | .error e => .error e
  | .ok n => prmLoadLoop buf n 4 es

/-- Big-endian value of a byte blob, `int.from_bytes(value, "big")`
(PRM.py:155,159). -/
def natFromBytes (bs : List Nat) : Nat := bs.foldl (fun a b => a * 256 + b) 0

/-- Body of one iteration of the `PRM.update_file` loop (PRM.py:148-171).
No arm writes the 4-byte type tag; the offset advances by
`field_name_size + 4` and then by `field_type` (PRM.py:152,171).  The
source `match` dispatches on `field_type` alone; tag/value combinations
other than the five produced by `load_file` would fault in the source and
are left as no-ops here. -/
def prmWriteEntry (buf : List Nat) (off : Nat) (e : PRMFieldEntry) :
    Except CodecErr (List Nat × Nat) :=
  let b1 := writeU16 buf off e.field_hash
  let b2 := writeU16 b1 (off + 2) e.field_name_size
  match writeStr b2 (off + 4) e.field_name e.field_name_size 0 with
  | .error er => .error er
  | .ok b3 =>
    let off := off + e.field_name_size + 4
    let b4 :=
      match e.field_type, e.field_value with
      | 1, .blob bs => writeU8 b3 off (natFromBytes bs)
      | 2, .short n => writeU16 b3 off n
      | 4, .blob bs => writeU32 b3 off (natFromBytes bs)
      | 12, .vector a b c =>
        writeFloatWord (writeFloatWord (writeFloatWord b3 off a) (off + 4) b) (off + 8) c
      | 16, .color r g bl o =>
        writeU32 (writeU32 (writeU32 (writeU32 b3 off r) (off + 4) g) (off + 8) bl) (off + 12) o
      | _, _ => b3
    .ok (b4, off + e.field_type)

/-- Entry loop of `PRM.update_file` (PRM.py:148-171). -/
def prmUpdateLoop (buf : List Nat) (off : Nat) : List PRMFieldEntry → Except CodecErr (List Nat)
  | [] => .ok buf
  | e :: es =>
    match prmWriteEntry buf off e with
    | .error er => .error er
    | .ok (b, off2) => prmUpdateLoop b off2 es

/-- Encoder `PRM.update_file` (PRM.py:137-171): a fresh buffer, the entry
count at offset 0, then the entries; no trailing padding. -/
def prmUpdateFile (entries : List PRMFieldEntry) : Except CodecErr (List Nat) :=
  prmUpdateLoop (writeU32 [] 0 entries.length) 4 entries

/-- Python attribute carrier for a `PRM` object (PRM.py:85-90): `__init__`
binds only `self.data`, so the object owns no instance-level binding for
`data_entries` unless one is assigned later (none ever is). -/
structure PRMObject where
  instance_entries : Option (List PRMFieldEntry)
  data : List Nat
  deriving DecidableEq

/-- Constructor `PRM.__init__` (PRM.py:89-90). -/
def prmInit (buf : List Nat) : PRMObject := ⟨none, buf⟩

/-- Python attribute lookup for `self.data_entries`: the instance binding if
one exists, otherwise the class-level list `PRM.data_entries` (PRM.py:87),
which every instance without its own binding aliases. -/
def prmDataEntries (classEntries : List PRMFieldEntry) (o : PRMObject) :
    List PRMFieldEntry :=
  o.instance_entries.getD classEntries

/-- Effect of `o.load_file()` on the attribute state: the appends at
PRM.py:135 mutate in place whichever list the attribute lookup found, so
when the object has no instance binding the class-level list itself is
extended; the result pairs the new class-level list with the (unchanged or
rebound) object. -/
def prmLoadFileObj (classEntries : List PRMFieldEntry) (o : PRMObject) :
    Except CodecErr (List PRMFieldEntry × PRMObject) :=
  match prmLoadFile (prmDataEntries classEntries o) o.data with
  | .error e => .error e
  | .ok r =>
    match o.instance_entries with
    | none => .ok (r, o)
    | some _ => .ok (classEntries, { o with instance_entries := some r })

/-- Descriptor of the spec's concrete table scenario: Int field with hash
0x1001, bitmask 0xFFFFFFFF, start offset 0, shift 0. -/
def exF : JMPFieldHeader := mkJMPFieldHeader 4097 4294967295 0 0 0

/-- Concrete table buffer of the spec: preamble `row_count=1, field_count=1,
header_block_size=28, record_stride=4`, the `exF` descriptor, and the single
row `00 00 00 2A`. -/
def exB : List Nat :=
  [0, 0, 0, 1, 0, 0, 0, 1, 0, 0, 0, 28, 0, 0, 0, 4,
   0, 0, 16, 1, 255, 255, 255, 255, 0, 0, 0, 0,
   0, 0, 0, 42]

/-- Table the claim expects decoding `exB` to produce; the source instead
raises at the first cell store and never builds it. -/
def exT : JMP := mkJMP [exF] [[(exF, .vInt 42)]]

/-- Int descriptor with bitmask 0xFF covering only the low byte. -/
def exC1F : JMPFieldHeader := mkJMPFieldHeader 7 255 0 0 0

/-- Table buffer whose single row word 0xAABBCC05 carries bits outside the
0xFF bitmask of its single Int field. -/
def exC1Buf : List Nat :=
  [0, 0, 0, 1, 0, 0, 0, 1, 0, 0, 0, 28, 0, 0, 0, 4,
   0, 0, 0, 7, 0, 0, 0, 255, 0, 0, 0, 0,
   170, 187, 204, 5]

/-- Int descriptor with bitmask 2 and shift 1, where mask-then-shift and
shift-then-mask disagree. -/
def exC3F : JMPFieldHeader := mkJMPFieldHeader 3 2 0 1 0

/-- Table buffer carrying the word 2 for the `exC3F` field. -/
def exC3Buf : List Nat :=
  [0, 0, 0, 1, 0, 0, 0, 1, 0, 0, 0, 28, 0, 0, 0, 4,
   0, 0, 0, 3, 0, 0, 0, 2, 0, 0, 1, 0,
   0, 0, 0, 2]

/-- Table with one field and no rows; its encoded body is 28 bytes, so
28 % 32 = 28 filler bytes are appended. -/
def exC4T : JMP := mkJMP [mkJMPFieldHeader 1 0 0 0 0] []

/-- Zero-row table buffer with one Int descriptor; with no rows there is no
cell store, so it loads successfully, as `exC4T`. -/
def exC9OkJmp : List Nat :=
  [0, 0, 0, 0, 0, 0, 0, 1, 0, 0, 0, 28, 0, 0, 0, 4,
   0, 0, 0, 1, 0, 0, 0, 0, 0, 0, 0, 0]

/-- Parameter buffer in the spec's layout: entry count 1, then hash 1,
name_length 2, name `hp`, type tag u32 = 2, payload `00 64`. -/
def exC6Buf : List Nat :=
  [0, 0, 0, 1, 0, 1, 0, 2, 104, 112, 0, 0, 0, 2, 0, 100]

/-- Entry the code decodes from `exC6Buf`: the u16 payload is read at the
type-tag offset, yielding 0. -/
def exShortEntry : PRMFieldEntry := ⟨1, [104, 112], 2, 2, .short 0⟩

/-- Bytes `update_file` produces from `[exShortEntry]`. -/
def exC5Bytes : List Nat := [0, 0, 0, 1, 0, 1, 0, 2, 104, 112, 0, 0]

/-- Spec's concrete parameter entry: Short value 100. -/
def exC6ClaimEntry : PRMFieldEntry := ⟨1, [104, 112], 2, 2, .short 100⟩

/-- Parameter buffer with one Byte entry (empty name, payload byte 0xAB)
that the code decodes successfully. -/
def exC9OkPrm : List Nat := [0, 0, 0, 1, 0, 1, 0, 0, 0, 0, 0, 1, 171]

/-- Entry decoded from `exC9OkPrm`. -/
def exByteEntry : PRMFieldEntry := ⟨1, [], 0, 1, .blob [171]⟩

/-- Parameter buffer with zero entries. -/
def exOtherPrm : List Nat := [0, 0, 0, 0]

/-- Table buffer whose single descriptor carries type tag 9. -/
def exC9BadJmp : List Nat :=
  [0, 0, 0, 0, 0, 0, 0, 1, 0, 0, 0, 28, 0, 0, 0, 4,
   0, 0, 0, 1, 0, 0, 0, 0, 0, 0, 0, 9]

/-- Parameter buffer whose single entry carries type_size 5. -/
def exC9BadPrm : List Nat := [0, 0, 0, 1, 0, 1, 0, 0, 0, 0, 0, 5]

/-- Twenty-byte table buffer with header_block_size 20: the 4-byte
descriptor block is not a multiple of 12. -/
def exC8Buf : List Nat :=
  [0, 0, 0, 0, 0, 0, 0, 1, 0, 0, 0, 20, 0, 0, 0, 0, 9, 9, 9, 9]


theorem readU8_error_eq (buf : List Nat) (off : Nat) (e : CodecErr)
    (h : readU8 buf off = .error e) : e = .truncatedBuffer := by
  unfold readU8 at h
  split at h
  · exact Except.noConfusion h
  · exact (Except.error.inj h).symm

theorem readU16_error_eq (buf : List Nat) (off : Nat) (e : CodecErr)
    (h : readU16 buf off = .error e) : e = .truncatedBuffer := by
  unfold readU16 at h
  split at h
  · exact Except.noConfusion h
  · exact (Except.error.inj h).symm

theorem readU32_error_eq (buf : List Nat) (off : Nat) (e : CodecErr)
    (h : readU32 buf off = .error e) : e = .truncatedBuffer := by
  unfold readU32 at h
  split at h
  · exact Except.noConfusion h
  · exact (Except.error.inj h).symm

theorem readS32_error_eq (buf : List Nat) (off : Nat) (e : CodecErr)
    (h : readS32 buf off = .error e) : e = .truncatedBuffer := by
  unfold readS32 at h
  cases hu : readU32 buf off with
  | error a =>
    rw [hu] at h
    simp only [Except.map] at h
    injection h with h2
    subst h2
    exact readU32_error_eq _ _ _ hu
  | ok w =>
    rw [hu] at h
    simp only [Except.map] at h
    exact Except.noConfusion h

theorem readFloatWord_error_eq (buf : List Nat) (off : Nat) (e : CodecErr)
    (h : readFloatWord buf off = .error e) : e = .truncatedBuffer :=
  readU32_error_eq _ _ _ h

theorem readStrUntilNull_error_eq (buf : List Nat) (off len : Nat) (e : CodecErr)
    (h : readStrUntilNull buf off len = .error e) : e = .truncatedBuffer := by
  unfold readStrUntilNull at h
  split at h
  · exact Except.noConfusion h
  · exact (Except.error.inj h).symm

theorem readU32_ok_of_le (buf : List Nat) (off : Nat) (h : off + 4 ≤ buf.length) :
    ∃ w, readU32 buf off = .ok w := by
  unfold readU32
  rw [if_pos h]
  exact ⟨_, rfl⟩

theorem readS32_ok_of_le (buf : List Nat) (off : Nat) (h : off + 4 ≤ buf.length) :
    ∃ v, readS32 buf off = .ok v := by
  obtain ⟨w, hw⟩ := readU32_ok_of_le buf off h
  exact ⟨_, by unfold readS32; rw [hw]; rfl⟩

theorem loadRow_error_eq (buf : List Nat) (start : Nat) :
    ∀ (fields : List JMPFieldHeader) (e : CodecErr),
      loadRow buf start fields = .error e →
      e = .truncatedBuffer ∨ e = .typeError := by
  intro fields
  induction fields with
  | nil => intro e h; exact Except.noConfusion h
  | cons f fs ih =>
    intro e h
    unfold loadRow at h
    split at h
    · split at h
      · rename_i herr
        injection h with h2
        subst h2
        exact Or.inl (readU32_error_eq _ _ _ herr)
      · injection h with h2
        subst h2
        exact Or.inr rfl
    · split at h
      · rename_i herr
        injection h with h2
        subst h2
        exact Or.inl (readStrUntilNull_error_eq _ _ _ _ herr)
      · injection h with h2
        subst h2
        exact Or.inr rfl
    · split at h
      · rename_i herr
        injection h with h2
        subst h2
        exact Or.inl (readFloatWord_error_eq _ _ _ herr)
      · injection h with h2
        subst h2
        exact Or.inr rfl
    · exact ih _ h

theorem loadEntriesFrom_error_eq (buf : List Nat) (fields : List JMPFieldHeader)
    (ses hbs : Nat) :
    ∀ (n i : Nat) (e : CodecErr),
      loadEntriesFrom buf fields ses hbs i n = .error e →
      e = .truncatedBuffer ∨ e = .typeError := by
  intro n
  induction n with
  | zero => intro i e h; exact Except.noConfusion h
  | succ n ih =>
    intro i e h
    unfold loadEntriesFrom at h
    split at h
    · rename_i herr
      injection h with h2
      subst h2
      exact loadRow_error_eq _ _ _ _ herr
    · split at h
      · rename_i herr
        injection h with h2
        subst h2
        exact ih _ _ herr
      · exact Except.noConfusion h

theorem loadHeadersFrom_error_shape (buf : List Nat) :
    ∀ (n off : Nat) (e : CodecErr),
      loadHeadersFrom buf off n = .error e →
      e = .truncatedBuffer ∨ e = .unknownFieldType := by
  intro n
  induction n with
  | zero => intro off e h; exact Except.noConfusion h
  | succ n ih =>
    intro off e h
    unfold loadHeadersFrom at h
    split at h
    · split at h
      · split at h
        · rename_i herr
          injection h with h2
          subst h2
          exact ih _ _ herr
        · exact Except.noConfusion h
      · injection h with h2
        subst h2
        exact Or.inr rfl
    all_goals
      injection h with h2
    all_goals
      subst h2
    all_goals
      left
    all_goals
      first
        | exact readU32_error_eq buf off _ (by assumption)
        | exact readU32_error_eq buf (off + 4) _ (by assumption)
        | exact readU16_error_eq buf (off + 8) _ (by assumption)
        | exact readU8_error_eq buf (off + 10) _ (by assumption)
        | exact readU8_error_eq buf (off + 11) _ (by assumption)

theorem loadJmp_ok_inv (buf : List Nat) (t : JMP) (h : loadJmp buf = .ok t) :
    ∃ dec fc hbs ses,
      readS32 buf 0 = .ok dec ∧ readS32 buf 4 = .ok fc ∧
      readU32 buf 8 = .ok hbs ∧ readU32 buf 12 = .ok ses ∧
      loadHeadersFrom buf 16 fc.toNat = .ok t.fields ∧
      loadEntriesFrom buf t.fields ses hbs 0 dec.toNat = .ok t.data_entries := by
  unfold loadJmp at h
  split at h
  · rename_i x1 x2 x3 x4 dec fc hbs ses h1 h2 h3 h4
    split at h
    · exact Except.noConfusion h
    · split at h
      · exact Except.noConfusion h
      · rename_i fields heqH
        split at h
        · exact Except.noConfusion h
        · split at h
          · exact Except.noConfusion h
          · rename_i entries heqE
            injection h with h5
            subst h5
            exact ⟨dec, fc, hbs, ses, h1, h2, h3, h4, heqH, heqE⟩
  all_goals exact Except.noConfusion h

theorem loadHeadersFrom_types (buf : List Nat) :
    ∀ (n off : Nat) (fields : List JMPFieldHeader),
      loadHeadersFrom buf off n = .ok fields →
      ∀ f ∈ fields,
        f.field_data_type = 0 ∨ f.field_data_type = 1 ∨ f.field_data_type = 2 := by
  intro n
  induction n with
  | zero =>
    intro off fields h f hf
    injection h with h2
    subst h2
    simp at hf
  | succ n ih =>
    intro off fields h f hf
    unfold loadHeadersFrom at h
    split at h
    · split at h
      · rename_i hcond
        split at h
        · exact Except.noConfusion h
        · rename_i rest heqR
          injection h with h2
          subst h2
          rcases List.mem_cons.mp hf with hh | ht
          · subst hh
            exact hcond
          · exact ih _ _ heqR f ht
      · exact Except.noConfusion h
    all_goals exact Except.noConfusion h

theorem prmDecodeOne_type (buf : List Nat) (off : Nat) (ent : PRMFieldEntry) (off2 : Nat)
    (h : prmDecodeOne buf off = .ok (ent, off2)) :
    ent.field_type = 1 ∨ ent.field_type = 2 ∨ ent.field_type = 4 ∨
    ent.field_type = 12 ∨ ent.field_type = 16 := by
  unfold prmDecodeOne at h
  dsimp only at h
  repeat' split at h
  all_goals try exact Except.noConfusion h
  all_goals
    injection h with h2
  all_goals
    rw [Prod.mk.injEq] at h2
  all_goals
    obtain ⟨h3, h4⟩ := h2
  all_goals
    subst h3
  all_goals
    dsimp only
  all_goals
    tauto

theorem prmLoadLoop_mem (buf : List Nat) :
    ∀ (n off : Nat) (es res : List PRMFieldEntry),
      prmLoadLoop buf n off es = .ok res →
      ∀ x ∈ res,
        x ∈ es ∨ (x.field_type = 1 ∨ x.field_type = 2 ∨ x.field_type = 4 ∨
                  x.field_type = 12 ∨ x.field_type = 16) := by
  intro n
  induction n with
  | zero =>
    intro off es res h x hx
    injection h with h2
    subst h2
    exact Or.inl hx
  | succ n ih =>
    intro off es res h x hx
    unfold prmLoadLoop at h
    split at h
    · exact Except.noConfusion h
    · rename_i ent off2 heqD
      rcases ih _ _ _ h x hx with hmem | hty
      · rcases List.mem_append.mp hmem with hl | hr
        · exact Or.inl hl
        · have hx2 : x = ent := by simpa using hr
          subst hx2
          exact Or.inr (prmDecodeOne_type _ _ _ _ heqD)
      · exact Or.inr hty

theorem prmLoadLoop_append (buf : List Nat) :
    ∀ (n off : Nat) (es : List PRMFieldEntry),
      prmLoadLoop buf n off es =
        (prmLoadLoop buf n off []).map (fun d => es ++ d) := by
  intro n
  induction n with
  | zero =>
    intro off es
    simp [prmLoadLoop, Except.map]
  | succ n ih =>
    intro off es
    unfold prmLoadLoop
    cases hd : prmDecodeOne buf off with
    | error e => simp [Except.map]
    | ok p =>
      obtain ⟨ent, off2⟩ := p
      dsimp only
      rw [ih off2 (es ++ [ent]), ih off2 ([] ++ [ent])]
      cases prmLoadLoop buf n off2 [] with
      | error e => simp [Except.map]
      | ok d => simp [Except.map]

theorem prmLoadLoop_length (buf : List Nat) :
    ∀ (n off : Nat) (es res : List PRMFieldEntry),
      prmLoadLoop buf n off es = .ok res → res.length = es.length + n := by
  intro n
  induction n with
  | zero =>
    intro off es res h
    injection h with h2
    subst h2
    rfl
  | succ n ih =>
    intro off es res h
    unfold prmLoadLoop at h
    split at h
    · exact Except.noConfusion h
    · rename_i ent off2 heqD
      have := ih _ _ _ h
      simp at this
      omega

/-- Claim C1: the claim states that encoding an Int field writes
`(existing_word & ~bitmask) | ((value << shift) & bitmask)` and so preserves
bits outside the bitmask.  Nothing of the kind runs: decoding any table with
a row and an Int field — `exC1Buf` here, existing word 0xAABBCC05 — raises
`TypeError` at the dict store (JMP.py:199, unhashable dataclass key), so no
row with an Int cell ever exists to be encoded; and the write arm that would
handle one (JMP.py:156) computes `(value << shift) | bitmask` without
reading any existing word, so for value 5 under mask 0xFF it writes the word
0x000000FF where the claimed policy writes back 0xAABBCC05. -/
theorem c1_int_encode_bug :
    loadJmp exC1Buf = .error .typeError ∧
    jmpWriteField [] 28 (exC1F, .vInt 5) = .ok (writeU32 [] 28 255) ∧
    jmpSpecIntEncode 2864434181 5 0 255 = 2864434181 ∧
    (255 : Nat) ≠ 2864434181 :=
  ⟨rfl, rfl, by decide, by decide⟩

/-- Claim C2: the claim states that decode then encode round-trips and that
the concrete one-Int-field buffer decodes to row value 42 and re-encodes
byte-identically.  Decoding `exB` instead raises `TypeError` at the first
cell store (JMP.py:199, unhashable dataclass key): the loader yields no
table at all — in particular not the expected table `exT` with row value
42 — so `decode(encode(T))` is unattainable for this input. -/
theorem c2_roundtrip_bug :
    loadJmp exB = .error .typeError ∧
    (Except.error CodecErr.typeError ≠ (.ok exT : Except CodecErr JMP)) :=
  ⟨rfl, fun h => Except.noConfusion h⟩

/-- Claim C3: the claim states decoding an Int field reads the word at
`header_block_size + row_index * record_stride + start_offset` and yields
`(word & bitmask) >> shift`.  Decoding yields nothing: the dict store raises
`TypeError` (JMP.py:199, unhashable dataclass key) — `exC3Buf` evaluates to
that error — and the discarded right-hand side of the store applies the
shift before the mask, `(2 >> 1) & 2 = 0`, where the claimed formula gives
`(2 & 2) >> 1 = 1`. -/
theorem c3_int_decode_bug :
    loadJmp exC3Buf = .error .typeError ∧
    jmpIntDecodeExpr 2 exC3F = 0 ∧
    jmpSpecIntDecode 2 2 1 = 1 ∧
    (0 : Nat) ≠ 1 :=
  ⟨rfl, rfl, rfl, by decide⟩

/-- Claim C4: the claim states encoded tables are padded with `@` to a
multiple of 32.  The code at JMP.py:133-134 appends `curr_length % 32`
filler bytes instead of `32 - curr_length % 32`: for a table with one field
and no rows the 28-byte body receives 28 `@` bytes, and the resulting 56-byte
output is not a multiple of 32 (contradicting the code's own comment at
JMP.py:130 and docstring at JMP.py:72-73). -/
theorem c4_padding_bug :
    (createNewJmp exC4T).map List.length = .ok 56 ∧
    (createNewJmp exC4T).map (fun b => b.drop 28) = .ok (List.replicate 28 64) ∧
    56 % 32 ≠ 0 :=
  ⟨rfl, rfl, by decide⟩

/-- Claim C5: the claim states parameter sets round-trip through
encode/decode.  The set decoded from `exC6Buf` re-encodes to `exC5Bytes`
(12 bytes: `update_file` never writes the 4-byte type tag, PRM.py:148-171),
and decoding that output fails with a truncated read of the type tag, so
`decode(encode(P))` does not reproduce `P`. -/
theorem c5_prm_roundtrip_fails :
    prmLoadFile [] exC6Buf = .ok [exShortEntry] ∧
    prmUpdateFile [exShortEntry] = .ok exC5Bytes ∧
    prmLoadFile [] exC5Bytes = .error .truncatedBuffer :=
  ⟨rfl, rfl, rfl⟩

/-- Claim C6: the claim states the entry `hash=1, name "hp", type_size=2,
payload 00 64` decodes to Short 100 and re-encodes to its original bytes.
The code decodes Short payloads at the type-tag offset (PRM.py:120), yielding
0, and re-encodes the claimed entry to 8 entry bytes without the type tag,
different from the original entry bytes. -/
theorem c6_short_entry_bug :
    (prmLoadFile [] exC6Buf).map (List.map PRMFieldEntry.field_value) = .ok [.short 0] ∧
    PRMValue.short 0 ≠ .short 100 ∧
    (prmUpdateFile [exC6ClaimEntry]).map (fun b => b.drop 4) =
      .ok [0, 1, 0, 2, 104, 112, 0, 100] ∧
    ([0, 1, 0, 2, 104, 112, 0, 100] : List Nat) ≠ exC6Buf.drop 4 :=
  ⟨rfl, by decide, rfl, by decide⟩

/-- Claim C7: the claim states distinct instances share no mutable
collection state and each instance's collections hold only entries decoded
from its own buffer.  `PRM.data_entries` is a class-level list (PRM.py:87)
that `__init__` never rebinds, so loading one instance extends the list every
other instance reads: after loading the first object, a second object over a
different buffer sees `[exByteEntry]` where it previously saw `[]`. -/
theorem c7_shared_entries_bug :
    prmDataEntries [] (prmInit exOtherPrm) = [] ∧
    prmLoadFileObj [] (prmInit exC9OkPrm) = .ok ([exByteEntry], prmInit exC9OkPrm) ∧
    prmDataEntries [exByteEntry] (prmInit exOtherPrm) = [exByteEntry] ∧
    ([exByteEntry] : List PRMFieldEntry) ≠ [] :=
  ⟨rfl, rfl, rfl, by decide⟩

/-- Claim C8: for a buffer whose 16-byte preamble is readable and whose
declared header block size is at least 16, loading fails with the
header-size-mismatch error exactly when the `header_block_size - 16` bytes
read as the field-descriptor block are not an exact multiple of 12, or that
multiple does not equal `field_count`, or `header_block_size` exceeds the
total buffer length (JMP.py:84-88); on that failure the result is the error
alone, so no fields or rows are produced. -/
theorem c8_header_size_mismatch_iff (buf : List Nat) (fc : Int) (hbs : Nat)
    (hsize : 16 ≤ buf.length) (hfc : readS32 buf 4 = .ok fc)
    (hhbs : readU32 buf 8 = .ok hbs) (h16 : 16 ≤ hbs) :
    loadJmp buf = .error .headerSizeMismatch ↔
      ((hbs - 16) % 12 ≠ 0 ∨ (((hbs - 16) / 12 : Nat) : Int) ≠ fc ∨
       hbs > buf.length) := by
  obtain ⟨dec, hdec⟩ := readS32_ok_of_le buf 0 (by omega)
  obtain ⟨ses, hses⟩ := readU32_ok_of_le buf 12 (by omega)
  have hblock : (jmpHeaderBlockLen buf hbs % 12 ≠ 0 ∨
      ((jmpHeaderBlockLen buf hbs / 12 : Nat) : Int) ≠ fc ∨ hbs > buf.length) ↔
      ((hbs - 16) % 12 ≠ 0 ∨ (((hbs - 16) / 12 : Nat) : Int) ≠ fc ∨
       hbs > buf.length) := by
    unfold jmpHeaderBlockLen
    rw [if_pos h16]
    by_cases hle : hbs ≤ buf.length
    · rw [Nat.min_eq_left (by omega)]
    · constructor
      · intro _
        exact Or.inr (Or.inr (by omega))
      · intro _
        exact Or.inr (Or.inr (by omega))
  rw [← hblock]
  unfold loadJmp
  rw [hdec, hfc, hhbs, hses]
  dsimp only
  split
  · rename_i hcond
    constructor
    · intro _
      exact hcond
    · intro _
      rfl
  · rename_i hcond
    constructor
    · intro hrest
      exfalso
      cases hH : loadHeadersFrom buf 16 fc.toNat with
      | error e =>
        rw [hH] at hrest
        dsimp only at hrest
        injection hrest with h2
        subst h2
        rcases loadHeadersFrom_error_shape buf _ _ _ hH with h3 | h3 <;>
          exact CodecErr.noConfusion h3
      | ok fields =>
        rw [hH] at hrest
        dsimp only at hrest
        split at hrest
        · exact CodecErr.noConfusion (Except.error.inj hrest)
        · split at hrest
          · rename_i e2 heqE
            injection hrest with h2
            subst h2
            rcases loadEntriesFrom_error_eq buf fields ses hbs dec.toNat 0 _ heqE
              with h3 | h3 <;> exact CodecErr.noConfusion h3
          · exact Except.noConfusion hrest
    · intro hcond2
      exact absurd hcond2 hcond

/-- Claim C8 (witness): the theorem evaluated on `exC8Buf`, a 20-byte buffer
declaring a 20-byte header block, whose 4-byte descriptor block is not a
multiple of 12. -/
theorem c8_header_size_mismatch_iff_witness :
    16 ≤ exC8Buf.length ∧ loadJmp exC8Buf = .error .headerSizeMismatch :=
  ⟨by decide,
   (c8_header_size_mismatch_iff exC8Buf 1 20 (by decide) rfl rfl (by decide)).mpr
     (Or.inl (by decide))⟩

/-- Claim C9: every table a successful load produces carries only type tags
0, 1 or 2, and every parameter set a successful load produces carries only
type sizes 1, 2, 4, 12 or 16; the concrete buffer with type tag 9 fails with
the unknown-field-type error (JMP.py:178-179), and the concrete buffer with
type_size 5 fails with the unknown-parameter-type error (PRM.py:132-133). -/
theorem c9_unknown_type_rejection (buf1 buf2 : List Nat) (t : JMP)
    (es : List PRMFieldEntry)
    (h1 : loadJmp buf1 = .ok t) (h2 : prmLoadFile [] buf2 = .ok es) :
    (∀ f ∈ t.fields,
       f.field_data_type = 0 ∨ f.field_data_type = 1 ∨ f.field_data_type = 2) ∧
    (∀ x ∈ es,
       x.field_type = 1 ∨ x.field_type = 2 ∨ x.field_type = 4 ∨
       x.field_type = 12 ∨ x.field_type = 16) ∧
    loadJmp exC9BadJmp = .error .unknownFieldType ∧
    prmLoadFile [] exC9BadPrm = .error .unknownParameterType := by
  refine ⟨?_, ?_, rfl, rfl⟩
  · obtain ⟨dec, fc, hbs, ses, _, _, _, _, hH, _⟩ := loadJmp_ok_inv buf1 t h1
    exact loadHeadersFrom_types buf1 _ _ _ hH
  · intro x hx
    unfold prmLoadFile at h2
    cases hn : readU32 buf2 0 with
    | error e =>
      rw [hn] at h2
      exact Except.noConfusion h2
    | ok n =>
      rw [hn] at h2
      dsimp only at h2
      rcases prmLoadLoop_mem buf2 n 4 [] es h2 x hx with hmem | hty
      · simp at hmem
      · exact hty

/-- Claim C9 (witness): the theorem evaluated on `exC9OkJmp` (a zero-row
table that loads as `exC4T`) and `exC9OkPrm` (which loads as the single
Byte entry). -/
theorem c9_unknown_type_rejection_witness :
    (∀ f ∈ exC4T.fields,
       f.field_data_type = 0 ∨ f.field_data_type = 1 ∨ f.field_data_type = 2) ∧
    (∀ x ∈ [exByteEntry],
       x.field_type = 1 ∨ x.field_type = 2 ∨ x.field_type = 4 ∨
       x.field_type = 12 ∨ x.field_type = 16) ∧
    loadJmp exC9BadJmp = .error .unknownFieldType ∧
    prmLoadFile [] exC9BadPrm = .error .unknownParameterType :=
  c9_unknown_type_rejection exC9OkJmp exC9OkPrm exC4T [exByteEntry] rfl rfl

/-- Claim C10: `load_file` appends the buffer's `entry_count` decoded
entries to `data_entries` after whatever the list already holds, never
clearing it (PRM.py:105-135): if a fresh load of `buf` yields `d`, then a
load starting from entries `e0` yields `e0 ++ d`, a second load on the same
instance yields `d ++ d`, and `d` has exactly the declared entry count. -/
theorem c10_load_file_appends (buf : List Nat) (e0 d : List PRMFieldEntry)
    (n : Nat) (hd : prmLoadFile [] buf = .ok d) (hn : readU32 buf 0 = .ok n) :
    prmLoadFile e0 buf = .ok (e0 ++ d) ∧
    prmLoadFile d buf = .ok (d ++ d) ∧ d.length = n := by
  unfold prmLoadFile at hd ⊢
  rw [hn] at hd ⊢
  dsimp only at hd ⊢
  refine ⟨?_, ?_, ?_⟩
  · rw [prmLoadLoop_append buf n 4 e0, hd]
    rfl
  · rw [prmLoadLoop_append buf n 4 d, hd]
    rfl
  · have hlen := prmLoadLoop_length buf n 4 [] d hd
    simpa using hlen

/-- Claim C10 (witness): the theorem evaluated on `exC9OkPrm` with one
pre-existing entry: the second load leaves it in place followed by the newly
decoded entry. -/
theorem c10_load_file_appends_witness :
    prmLoadFile [exByteEntry] exC9OkPrm = .ok ([exByteEntry] ++ [exByteEntry]) ∧
    prmLoadFile [exByteEntry] exC9OkPrm = .ok ([exByteEntry] ++ [exByteEntry]) ∧
    ([exByteEntry] : List PRMFieldEntry).length = 1 :=
  c10_load_file_appends exC9OkPrm [exByteEntry] [exByteEntry] 1 rfl rfl
